import Mathlib

/-!
Shallow embedding of the Red-DiscordBot `Cleanup` cog
(`redbot/cogs/cleanup/cleanup.py`) and verification of its specified
selection/deletion behaviour.

Timestamps are modelled as integers (minutes); the channel history is
modelled as a list of messages in newest-first order, exactly the order
the platform feed hands items to the scan loop.
-/

set_option autoImplicit false

namespace Cleanup

/-- Platform message as read by the cog: id, author id, content,
creation timestamp (minutes), pinned flag. -/
structure Message where
  id : Nat
  authorId : Nat
  content : String
  createdAt : Int
  pinned : Bool
deriving DecidableEq, Repr

/-! ### String helpers mirroring the Python operations used by the cog -/

/-- Python `sub in s` (substring containment) on character lists. -/
def list_contains (sub : List Char) : List Char → Bool
  | [] => sub.isEmpty
  | c :: rest => sub.isPrefixOf (c :: rest) || list_contains sub rest

/-- Python `sub in s` on strings. -/
def str_contains (s sub : String) : Bool :=
  list_contains sub.toList s.toList

/-- Python `s.startswith(p)`. -/
def str_starts (s p : String) : Bool :=
  p.toList.isPrefixOf s.toList

/-- Python `s.endswith(p)`. -/
def str_ends (s p : String) : Bool :=
  p.toList.isSuffixOf s.toList

/-- Python `s[n:]` (drop the first `n` characters). -/
def str_drop (s : String) (n : Nat) : String :=
  String.mk (s.toList.drop n)

/-- Python `len(s)` (character count). -/
def str_len (s : String) : Nat :=
  s.toList.length

/-- Python `s.split(" ")[0]`: the characters before the first space. -/
def first_token (s : String) : String :=
  String.mk (s.toList.takeWhile (fun c => c != ' '))

/-- Python `s.lower().startswith("y")` as used by the confirmation gate. -/
def starts_with_y (s : String) : Bool :=
  match s.toList with
  | [] => false
  | c :: _ => c.toLower == 'y'

/-! ### Cutoff policy (cleanup.py line 78) -/

/-- Line 78: `two_weeks_ago = datetime.utcnow() - timedelta(days=14, minutes=-5)`,
i.e. now minus fourteen days plus a five-minute safety margin, in minutes. -/
def two_weeks_ago (now : Int) : Int :=
  now - (14 * 1440 - 5)

/-- Lines 80-85: the local `message_filter` closure of
`get_messages_for_deletion` (defined in the source, but never called by
the scan loop at lines 92-101). -/
def message_filter (check : Message → Bool) (tw : Int) (delete_pinned : Bool)
    (m : Message) : Bool :=
  check m && decide (tw < m.createdAt) && (delete_pinned || !m.pinned)

/-! ### History feed (external platform interface, spec section 6) -/

/-- Modelled from the spec: the platform's paginated history feed
(`channel.history(limit=None, before=..., after=..., reverse=False)` is
discord.py, outside this repository). Spec section 6 describes it as a
time-ordered, newest-first feed bounded by optional `before`/`after`
anchors; per section 4.2 anchors bound the scan exclusively (everything
strictly on the far side of the anchor), which is also why the commands
that want the invoking message gone append it separately. Anchors are
timestamps here. -/
def history (feed : List Message) (before : Option Int) (after : Option Int) :
    List Message :=
  feed.filter (fun m =>
    (match before with
     | some b => decide (m.createdAt < b)
     | none => true)
    &&
    (match after with
     | some a => decide (a < m.createdAt)
     | none => true))

/-! ### The scan loop (cleanup.py lines 92-103) -/

/-- Line 100: Python `number and number <= len(collected)` — `None` and
`0` are both falsy, any other integer compares against the collected
count. -/
def number_break : Option Int → Nat → Bool
  | none, _ => false
  | some n, len => n != 0 && decide (n ≤ (len : Int))

/-- Lines 92-101: the `async for` collection loop of
`get_messages_for_deletion`. Note that the loop tests `check(message)`
only; the `message_filter` closure is not consulted. -/
def gmfd_loop (tw : Int) (check : Message → Bool) (number : Option Int) :
    List Message → List Message → List Message
  | [], collected => collected
  | m :: rest, collected =>
    if m.createdAt < tw then collected
    else if check m then
      if number_break number (collected ++ [m]).length then collected ++ [m]
      else gmfd_loop tw check number rest (collected ++ [m])
    else gmfd_loop tw check number rest collected

/-- Lines 52-103: `get_messages_for_deletion`. `feed` is the channel's
full history (newest-first); `before`/`after` are the anchors handed to
`channel.history` (lines 87-90 clamp `after` up to the cutoff first);
`delete_pinned` is accepted but — like in the source — never reaches the
scan loop. -/
def get_messages_for_deletion (feed : List Message) (number : Option Int)
    (check : Message → Bool) (before : Option Message) (after : Option Int)
    (delete_pinned : Bool) (now : Int) : List Message :=
  let tw := two_weeks_ago now
  let afterClamped := after.map (fun a => max a tw)
  gmfd_loop tw check number (history feed (before.map Message.createdAt) afterClamped) []

/-! ### Confirmation gate (cleanup.py lines 23-50, `check_100_plus`) -/

/-- Outcome of `check_100_plus`: returned `True`, returned `False`, or
an exception escaped it (the bare `await prompt.delete()` at line 42 is
not wrapped in `try`). -/
inductive ConfirmResult where
  | confirmed
  | declined
  | raised
deriving DecidableEq, Repr

/-- Message-channel side effects performed by `check_100_plus`, in
order: the prompt send (line 36), the prompt delete attempt (line 42),
the response delete attempt (lines 43-46), the cancellation notice
(line 49). -/
inductive ConfirmAction where
  | sendPrompt (n : Int)
  | deletePrompt
  | deleteResponse
  | sendCancelled
deriving DecidableEq, Repr

/-- Ambient behaviour of the interactive channel during one run of the
gate: the content of the next message sent by the invoking user, and
whether each of the two delete calls would succeed. -/
structure ConfirmEnv where
  responseContent : String
  promptDeleteOk : Bool
  responseDeleteOk : Bool
deriving DecidableEq, Repr

/-- Lines 23-50: `check_100_plus`. Sends the prompt, waits for the next
message from the invoking author, and resolves. On a "y…" reply the
prompt delete is awaited bare (a failure there escapes as `raised`),
then the response delete is attempted inside `try/except` (its failure
is swallowed). Any other reply sends the cancellation notice and
returns `False`. -/
def check_100_plus (n : Int) (env : ConfirmEnv) :
    ConfirmResult × List ConfirmAction :=
  if starts_with_y env.responseContent then
    if env.promptDeleteOk then
      (.confirmed, [.sendPrompt n, .deletePrompt, .deleteResponse])
    else
      (.raised, [.sendPrompt n, .deletePrompt])
  else
    (.declined, [.sendPrompt n, .sendCancelled])

/-! ### Command context and outcomes -/

/-- Invocation context: the triggering message, the bot's account id,
whether the author is a guild member (`type(author) is discord.Member`),
and whether the bot holds the channel-wide Manage Messages permission
(`channel.permissions_for(ctx.guild.me).manage_messages`). -/
structure Ctx where
  message : Message
  botUserId : Nat
  authorIsMember : Bool
  canManageMessages : Bool
deriving DecidableEq, Repr

/-- Result of one command invocation: refused for missing permission
(the "I need the Manage Messages permission" reply), cancelled by the
confirmation gate, aborted by the gate's unprotected prompt delete,
argument/anchor resolution failure, or a deletion dispatched through
`mass_purge` or `slow_deletion` with the listed messages. -/
inductive CmdResult where
  | noPerms
  | cancelled
  | confirmRaised
  | badArgument
  | notFound
  | massPurge (msgs : List Message)
  | slowDelete (msgs : List Message)
deriving DecidableEq, Repr

/-! ### Selection predicates (the local `check` closures) -/

/-- Lines 135-141: the `check` closure of `cleanup text`. -/
def text_check (t : String) (ctxMsg : Message) (m : Message) : Bool :=
  if str_contains m.content t then true
  else if m.id == ctxMsg.id then true
  else false

/-- Lines 191-198: the `check` closure of `cleanup user` (`_id` is the
resolved member id). -/
def user_check (uid : Nat) (ctxMsg : Message) (m : Message) : Bool :=
  if m.authorId == uid then true
  else if m.id == ctxMsg.id then true
  else false

/-- Lines 305-314: the `check` closure of `cleanup bot`: bot-authored
messages, the triggering message, and messages whose content starts
with a non-empty configured prefix followed by a token naming a
registered command (`getCommand` models `self.bot.get_command`). -/
def bot_check (botId : Nat) (ctxMsg : Message) (prefs : List String)
    (getCommand : String → Bool) (m : Message) : Bool :=
  if m.authorId == botId then true
  else if m.id == ctxMsg.id then true
  else
    match prefs.find? (fun p => str_starts m.content p) with
    | some p =>
      if str_len p > 0 then getCommand (first_token (str_drop m.content (str_len p)))
      else false
    | none => false

/-! ### A tiny regular-expression model for `cleanup self` -/

/-- Regular-expression fragment sufficient for the patterns the cog's
documentation and spec exercise: literal characters, the start anchor
`^`, grouping parentheses and concatenation (Python `re` is the
standard library, external to this repository). -/
inductive Rx where
  | eps
  | lit (c : Char)
  | caret
  | seq (a b : Rx)
  | group (a : Rx)
deriving DecidableEq, Repr

/-- Match a fragment at absolute position `pos` of the remaining
characters, returning the new position and remainder on success. -/
def rx_match_from : Rx → Nat → List Char → Option (Nat × List Char)
  | .eps, pos, s => some (pos, s)
  | .lit c, pos, s =>
    match s with
    | [] => none
    | c' :: rest => if c == c' then some (pos + 1, rest) else none
  | .caret, pos, s => if pos == 0 then some (pos, s) else none
  | .seq a b, pos, s =>
    match rx_match_from a pos s with
    | some (pos', s') => rx_match_from b pos' s'
    | none => none
  | .group a, pos, s => rx_match_from a pos s

/-- Python `bool(compiled.match(c))`: `re.match` anchors the attempt at
position 0 and is truthy when some prefix matches. -/
def re_match (r : Rx) (s : String) : Bool :=
  (rx_match_from r 0 s.toList).isSome

/-- Fueled parser for the fragment: literals, `^`, and balanced `(...)`
groups; stops at an unmatched `)`. -/
def rx_parse_aux : Nat → List Char → Option (Rx × List Char)
  | 0, _ => none
  | _ + 1, [] => some (.eps, [])
  | _ + 1, ')' :: rest => some (.eps, ')' :: rest)
  | fuel + 1, '(' :: rest =>
    match rx_parse_aux fuel rest with
    | some (inner, ')' :: rest') =>
      match rx_parse_aux fuel rest' with
      | some (tail, rem) => some (.seq (.group inner) tail, rem)
      | none => none
    | _ => none
  | fuel + 1, '^' :: rest =>
    match rx_parse_aux fuel rest with
    | some (tail, rem) => some (.seq .caret tail, rem)
    | none => none
  | fuel + 1, c :: rest =>
    match rx_parse_aux fuel rest with
    | some (tail, rem) => some (.seq (.lit c) tail, rem)
    | none => none

/-- Python `re.compile` restricted to the modelled fragment; `none` for
patterns outside it (which the claims never exercise). -/
def re_compile (p : String) : Option Rx :=
  match rx_parse_aux (2 * p.toList.length + 2) p.toList with
  | some (r, []) => some r
  | _ => none

/-- Lines 369-386 of `cleanup self`: `use_re` is true when the pattern
is non-empty (Python truthiness), starts with `r(` and ends with `)`;
then the leading `r` is stripped and the rest compiled, and a message
matches via `re.match`. A non-empty pattern without the marker is a
substring test; no pattern (or the falsy empty string) matches
everything. -/
def self_content_match (match_pattern : Option String) (c : String) : Bool :=
  match match_pattern with
  | none => true
  | some p =>
    if p != "" && str_starts p "r(" && str_ends p ")" then
      match re_compile (str_drop p 1) with
      | some r => re_match r c
      | none => false
    else if p != "" then str_contains c p
    else true

/-- Lines 388-393: the `check` closure of `cleanup self`: only
bot-authored messages whose content matches the pattern. -/
def self_check (botId : Nat) (match_pattern : Option String) (m : Message) : Bool :=
  if m.authorId != botId then false
  else if self_content_match match_pattern m.content then true
  else false

/-! ### The cleanup commands (lines 111-418)

Each command receives the invocation context, its arguments, the
channel's full history `feed` (newest-first), the interactive-channel
environment `env` for the confirmation gate, and the current time. -/

/-- Helper shared by the commands' confirmation step (lines 130-133 and
analogues): run the gate when `number > 100`, otherwise proceed. -/
def with_confirmation (number : Int) (env : ConfirmEnv) (proceed : CmdResult) :
    CmdResult :=
  if number > 100 then
    match (check_100_plus number env).1 with
    | .confirmed => proceed
    | .declined => .cancelled
    | .raised => .confirmRaised
  else proceed

/-- Lines 111-156: `cleanup text`. Permission gate, confirmation gate,
then a scan bounded `before` the triggering message with the substring
predicate, handed to `mass_purge`. -/
def cleanup_text (ctx : Ctx) (t : String) (number : Int) (delete_pinned : Bool)
    (feed : List Message) (env : ConfirmEnv) (now : Int) : CmdResult :=
  if !ctx.canManageMessages then .noPerms
  else
    with_confirmation number env
      (.massPurge (get_messages_for_deletion feed (some number)
        (text_check t ctx.message) (some ctx.message) none delete_pinned now))

/-- Lines 158-214: `cleanup user`. `resolvedId` models the member
converter plus the integer fallback (lines 173-182); `none` is the
`BadArgument` raised there. -/
def cleanup_user (ctx : Ctx) (resolvedId : Option Nat) (number : Int)
    (delete_pinned : Bool) (feed : List Message) (env : ConfirmEnv) (now : Int) :
    CmdResult :=
  if !ctx.canManageMessages then .noPerms
  else
    match resolvedId with
    | none => .badArgument
    | some uid =>
      with_confirmation number env
        (.massPurge (get_messages_for_deletion feed (some number)
          (user_check uid ctx.message) (some ctx.message) none delete_pinned now))

/-- Lines 216-248: `cleanup after`. `anchor` models
`channel.get_message(message_id)`; `none` is the `discord.NotFound`
path. No count, no confirmation gate, default always-true predicate. -/
def cleanup_after (ctx : Ctx) (anchor : Option Message) (delete_pinned : Bool)
    (feed : List Message) (now : Int) : CmdResult :=
  if !ctx.canManageMessages then .noPerms
  else
    match anchor with
    | none => .notFound
    | some a =>
      .massPurge (get_messages_for_deletion feed none
        (fun _ => true) none (some a.createdAt) delete_pinned now)

/-- Lines 250-279: `cleanup messages`. Default always-true predicate,
and the triggering message is appended to the scan result
(line 272) before purging. -/
def cleanup_messages (ctx : Ctx) (number : Int) (delete_pinned : Bool)
    (feed : List Message) (env : ConfirmEnv) (now : Int) : CmdResult :=
  if !ctx.canManageMessages then .noPerms
  else
    with_confirmation number env
      (.massPurge (get_messages_for_deletion feed (some number)
        (fun _ => true) (some ctx.message) none delete_pinned now
        ++ [ctx.message]))

/-- Lines 281-335: `cleanup bot`. `prefsIn` models
`await self.bot.get_prefix(ctx.message)` already as a list; a falsy
empty prefix is removed once (lines 302-303, Python `list.remove`).
The triggering message is appended (line 326) before purging. -/
def cleanup_bot (ctx : Ctx) (number : Int) (delete_pinned : Bool)
    (prefsIn : List String) (getCommand : String → Bool)
    (feed : List Message) (env : ConfirmEnv) (now : Int) : CmdResult :=
  if !ctx.canManageMessages then .noPerms
  else
    with_confirmation number env
      (.massPurge (get_messages_for_deletion feed (some number)
        (bot_check ctx.botUserId ctx.message (prefsIn.erase "") getCommand)
        (some ctx.message) none delete_pinned now
        ++ [ctx.message]))

/-- Lines 337-418: `cleanup self`. No permission gate: the capability
flag `can_mass_purge` (lines 364-367) is the author being a guild
member and the bot holding Manage Messages, and it selects the deletion
strategy (lines 415-418) — `mass_purge` when set, `slow_deletion`
otherwise. -/
def cleanup_self (ctx : Ctx) (number : Int) (match_pattern : Option String)
    (delete_pinned : Bool) (feed : List Message) (env : ConfirmEnv) (now : Int) :
    CmdResult :=
  let can_mass_purge := ctx.authorIsMember && ctx.canManageMessages
  let sel := get_messages_for_deletion feed (some number)
    (self_check ctx.botUserId match_pattern) (some ctx.message) none
    delete_pinned now
  with_confirmation number env
    (if can_mass_purge then .massPurge sel else .slowDelete sel)

/-! ### Lemmas about the scan loop -/

/-- The age predicate a message must satisfy to survive the cutoff test
of the scan loop. -/
def young (tw : Int) (m : Message) : Bool :=
  !decide (m.createdAt < tw)

theorem number_break_none (len : Nat) : number_break none len = false := rfl

theorem number_break_zero (len : Nat) : number_break (some 0) len = false := by
  simp [number_break]

/-- A target count of `0` is falsy in the loop's break test, so the loop
behaves exactly as with no target count. -/
theorem gmfd_loop_zero (tw : Int) (check : Message → Bool) :
    ∀ (feed acc : List Message),
      gmfd_loop tw check (some 0) feed acc = gmfd_loop tw check none feed acc := by
  intro feed
  induction feed with
  | nil => intro acc; rfl
  | cons m rest ih =>
    intro acc
    by_cases h1 : m.createdAt < tw
    · simp [gmfd_loop, h1]
    · by_cases h2 : check m
      · simp [gmfd_loop, h1, h2, number_break_zero, number_break_none, ih]
      · simp [gmfd_loop, h1, h2, ih]

/-- Every message the loop returns was already collected or is a feed
message strictly younger than the cutoff. -/
theorem gmfd_loop_mem (tw : Int) (check : Message → Bool) (number : Option Int) :
    ∀ (feed acc : List Message) (m : Message),
      m ∈ gmfd_loop tw check number feed acc →
      m ∈ acc ∨ (m ∈ feed ∧ ¬(m.createdAt < tw)) := by
  intro feed
  induction feed with
  | nil => intro acc m hm; exact Or.inl hm
  | cons x rest ih =>
    intro acc m hm
    by_cases h1 : x.createdAt < tw
    · rw [gmfd_loop, if_pos h1] at hm
      exact Or.inl hm
    · by_cases h2 : check x
      · rw [gmfd_loop, if_neg h1, if_pos h2] at hm
        by_cases h3 : number_break number (acc ++ [x]).length = true
        · rw [if_pos h3] at hm
          rcases List.mem_append.mp hm with h | h
          · exact Or.inl h
          · rcases List.mem_singleton.mp h with rfl
            exact Or.inr ⟨List.mem_cons_self _ _, h1⟩
        · rw [if_neg h3] at hm
          rcases ih (acc ++ [x]) m hm with h | h
          · rcases List.mem_append.mp h with h' | h'
            · exact Or.inl h'
            · rcases List.mem_singleton.mp h' with rfl
              exact Or.inr ⟨List.mem_cons_self _ _, h1⟩
          · exact Or.inr ⟨List.mem_cons_of_mem _ h.1, h.2⟩
      · rw [gmfd_loop, if_neg h1, if_neg h2] at hm
        rcases ih acc m hm with h | h
        · exact Or.inl h
        · exact Or.inr ⟨List.mem_cons_of_mem _ h.1, h.2⟩

/-- The loop never looks past the first message at or beyond the
cutoff: it computes the same result on the feed truncated there. This
is the hard short-circuit of spec section 4.3 step 2. -/
theorem gmfd_loop_takeWhile (tw : Int) (check : Message → Bool)
    (number : Option Int) :
    ∀ (feed acc : List Message),
      gmfd_loop tw check number feed acc
        = gmfd_loop tw check number (feed.takeWhile (young tw)) acc := by
  intro feed
  induction feed with
  | nil => intro acc; rfl
  | cons x rest ih =>
    intro acc
    by_cases h1 : x.createdAt < tw
    · have hy : young tw x = false := by simp [young, h1]
      simp [gmfd_loop, h1, List.takeWhile_cons, hy]
    · have hy : young tw x = true := by simp [young, h1]
      rw [List.takeWhile_cons_of_pos hy]
      rw [gmfd_loop, gmfd_loop, if_neg h1, if_neg h1]
      by_cases h2 : check x
      · rw [if_pos h2, if_pos h2]
        by_cases h3 : number_break number (acc ++ [x]).length = true
        · rw [if_pos h3, if_pos h3]
        · rw [if_neg h3, if_neg h3, ih]
      · rw [if_neg h2, if_neg h2, ih]

/-- With no target count the loop collects exactly the predicate-passing
messages of the feed up to the cutoff, in encounter order. -/
theorem gmfd_loop_none_eq (tw : Int) (check : Message → Bool) :
    ∀ (feed acc : List Message),
      gmfd_loop tw check none feed acc
        = acc ++ (feed.takeWhile (young tw)).filter check := by
  intro feed
  induction feed with
  | nil => intro acc; simp [gmfd_loop]
  | cons x rest ih =>
    intro acc
    by_cases h1 : x.createdAt < tw
    · have hy : young tw x = false := by simp [young, h1]
      simp [gmfd_loop, h1, List.takeWhile_cons, hy]
    · have hy : young tw x = true := by simp [young, h1]
      by_cases h2 : check x
      · simp [gmfd_loop, h1, h2, number_break_none, List.takeWhile_cons, hy,
          List.filter_cons, ih]
      · simp [gmfd_loop, h1, h2, List.takeWhile_cons, hy, List.filter_cons, ih]

/-- With a positive target count `n` and fewer than `n` messages
already collected, the loop returns the collected ones followed by the
next `n - |acc|` predicate-passing messages before the cutoff. -/
theorem gmfd_loop_pos_eq (tw : Int) (check : Message → Bool) (n : Int)
    (hn : 0 < n) :
    ∀ (feed acc : List Message), acc.length < n.toNat →
      gmfd_loop tw check (some n) feed acc
        = acc ++ ((feed.takeWhile (young tw)).filter check).take (n.toNat - acc.length) := by
  intro feed
  induction feed with
  | nil => intro acc _; simp [gmfd_loop]
  | cons x rest ih =>
    intro acc hacc
    by_cases h1 : x.createdAt < tw
    · have hy : young tw x = false := by simp [young, h1]
      rw [List.takeWhile_cons_of_neg (by simp [hy]), gmfd_loop, if_pos h1]
      simp
    · have hy : young tw x = true := by simp [young, h1]
      rw [List.takeWhile_cons_of_pos hy, gmfd_loop, if_neg h1]
      by_cases h2 : check x
      · rw [if_pos h2, List.filter_cons, if_pos h2]
        have hlen : (acc ++ [x]).length = acc.length + 1 := by simp
        by_cases h3 : n.toNat ≤ acc.length + 1
        · have heq : n.toNat = acc.length + 1 := le_antisymm h3 hacc
          have hbreak : number_break (some n) (acc ++ [x]).length = true := by
            simp only [number_break, hlen]
            refine (Bool.and_eq_true _ _).mpr ⟨?_, ?_⟩
            · simp [bne_iff_ne]; omega
            · exact decide_eq_true (Int.toNat_le.mp (le_of_eq heq))
          rw [if_pos hbreak, heq]
          simp [List.take_cons]
        · have hbreak : ¬(number_break (some n) ((acc ++ [x]).length) = true) := by
            simp only [number_break, hlen]
            intro hcontr
            rcases (Bool.and_eq_true _ _).mp hcontr with ⟨_, hdec⟩
            exact h3 (Int.toNat_le.mpr (of_decide_eq_true hdec))
          rw [if_neg hbreak]
          have hacc' : (acc ++ [x]).length < n.toNat := by
            rw [hlen]; omega
          rw [ih (acc ++ [x]) hacc']
          have hsub : n.toNat - acc.length = (n.toNat - (acc ++ [x]).length) + 1 := by
            rw [hlen]; omega
          rw [hsub, List.take_succ_cons, List.append_assoc]
          rfl
      · rw [if_neg h2, List.filter_cons, if_neg h2]
        exact ih acc hacc

/-- With a strictly negative target count the break test fires at the
first collected message: the result has at most one element. -/
theorem gmfd_loop_neg (tw : Int) (check : Message → Bool) (n : Int)
    (hn : n < 0) :
    ∀ (feed : List Message), (gmfd_loop tw check (some n) feed []).length ≤ 1 := by
  intro feed
  induction feed with
  | nil => simp [gmfd_loop]
  | cons x rest ih =>
    by_cases h1 : x.createdAt < tw
    · rw [gmfd_loop, if_pos h1]; simp
    · by_cases h2 : check x
      · have hbreak : number_break (some n) (([] : List Message) ++ [x]).length = true := by
          simp only [number_break, List.nil_append, List.length_singleton]
          refine (Bool.and_eq_true _ _).mpr ⟨?_, ?_⟩
          · simp [bne_iff_ne]; omega
          · exact decide_eq_true (by omega)
        rw [gmfd_loop, if_neg h1, if_pos h2, if_pos hbreak]
        simp
      · rw [gmfd_loop, if_neg h1, if_neg h2]
        exact ih

/-- On a newest-first (time-sorted) feed, truncating at the cutoff is
the same as filtering by the cutoff: once one message is too old, all
later ones are as well. -/
theorem takeWhile_young_eq_filter (tw : Int) :
    ∀ (feed : List Message),
      feed.Pairwise (fun a b => b.createdAt ≤ a.createdAt) →
      feed.takeWhile (young tw) = feed.filter (young tw) := by
  intro feed
  induction feed with
  | nil => intro _; rfl
  | cons x rest ih =>
    intro hp
    rcases List.pairwise_cons.mp hp with ⟨hall, hrest⟩
    by_cases h1 : x.createdAt < tw
    · have hy : young tw x = false := by simp [young, h1]
      rw [List.takeWhile_cons_of_neg (by simp [hy]), List.filter_cons, if_neg (by simp [hy])]
      have : rest.filter (young tw) = [] := by
        refine List.filter_eq_nil_iff.mpr ?_
        intro a ha
        have : a.createdAt ≤ x.createdAt := hall a ha
        simp [young]
        omega
      rw [this]
    · have hy : young tw x = true := by simp [young, h1]
      rw [List.takeWhile_cons_of_pos hy, List.filter_cons, if_pos (by simp [hy])]
      rw [ih hrest]

/-- The unanchored history feed is the feed itself. -/
theorem history_none_none (feed : List Message) :
    history feed none none = feed := by
  simp [history]

/-- `get_messages_for_deletion` with no anchors, unfolded to the scan
loop over the raw feed. -/
theorem gmfd_no_anchors (feed : List Message) (number : Option Int)
    (check : Message → Bool) (delete_pinned : Bool) (now : Int) :
    get_messages_for_deletion feed number check none none delete_pinned now
      = gmfd_loop (two_weeks_ago now) check number feed [] := by
  simp [get_messages_for_deletion, history_none_none, Option.map]

/-- The confirmation wrapper can only cancel, abort, or proceed: it
never introduces a permission refusal of its own. -/
theorem with_confirmation_ne_noPerms (n : Int) (env : ConfirmEnv)
    (r : CmdResult) (h : r ≠ CmdResult.noPerms) :
    with_confirmation n env r ≠ CmdResult.noPerms := by
  simp only [with_confirmation]
  by_cases h100 : n > 100
  · rw [if_pos h100]
    cases (check_100_plus n env).1 <;> simp [h]
  · rw [if_neg h100]
    exact h

/-! ### Claim theorems -/

/-- Claim C1 (code bug): the claim says a scan with `delete_pinned =
false` never returns a pinned message, and the function's own docstring
agrees ("The message is not pinned"); but the scan loop applies `check`
alone and never calls the `message_filter` closure that enforces the
pin rule, so a pinned, predicate-passing message inside the age window
is returned even with `delete_pinned = false`. -/
theorem pinned_message_selected_despite_flag :
    (⟨1, 2, "hello", 100, true⟩ : Message).pinned = true
    ∧ get_messages_for_deletion [⟨1, 2, "hello", 100, true⟩] none
        (fun _ => true) none none false 20200 = [⟨1, 2, "hello", 100, true⟩]
    ∧ message_filter (fun _ => true) (two_weeks_ago 20200) false
        ⟨1, 2, "hello", 100, true⟩ = false := by
  decide

/-- Claim C2 (code bug): the substring predicate does accept the
triggering message (the dead `m == ctx.message` clause), but
`cleanup text` scans `before` the triggering message — an exclusive
anchor — and never appends it, so the trigger is absent from the
Selection handed to `mass_purge`; only `cleanup bot` (and
`cleanup messages`) append the trigger explicitly. -/
theorem trigger_absent_from_text_selection :
    text_check "zzz" ⟨10, 5, "!cleanup text zzz 5", 1000, false⟩
        ⟨10, 5, "!cleanup text zzz 5", 1000, false⟩ = true
    ∧ cleanup_text ⟨⟨10, 5, "!cleanup text zzz 5", 1000, false⟩, 99, true, true⟩
        "zzz" 5 false
        [⟨10, 5, "!cleanup text zzz 5", 1000, false⟩, ⟨9, 6, "has zzz inside", 999, false⟩]
        ⟨"yes", true, true⟩ 20200
      = .massPurge [⟨9, 6, "has zzz inside", 999, false⟩]
    ∧ cleanup_bot ⟨⟨10, 5, "!cleanup text zzz 5", 1000, false⟩, 99, true, true⟩
        5 false ["!"] (fun _ => false)
        [⟨10, 5, "!cleanup text zzz 5", 1000, false⟩, ⟨9, 6, "has zzz inside", 999, false⟩]
        ⟨"yes", true, true⟩ 20200
      = .massPurge [⟨10, 5, "!cleanup text zzz 5", 1000, false⟩] := by
  decide

/-- Claim C3 (counterexample): a message whose timestamp equals the
computed cutoff — "at the cutoff" — is selected, because the loop's
break test is the strict `message.created_at < two_weeks_ago`. Here
`two_weeks_ago 20200 = 45` and the message is created at exactly 45. -/
theorem cutoff_boundary_message_selected :
    (⟨1, 2, "a", 45, false⟩ : Message).createdAt ≤ two_weeks_ago 20200
    ∧ get_messages_for_deletion [⟨1, 2, "a", 45, false⟩] none (fun _ => true)
        none none false 20200 = [⟨1, 2, "a", 45, false⟩] := by
  decide

/-- Claim C3 (amended): no message *strictly older* than the cutoff is
ever selected, whatever the predicate and count; and the scan is a hard
short-circuit — its result on the feed equals its result on the feed
truncated at the first strictly-too-old message. A message exactly at
the cutoff may still be selected. -/
theorem cutoff_strict_exclusion (feed : List Message) (number : Option Int)
    (check : Message → Bool) (dp : Bool) (now : Int) :
    (∀ m ∈ get_messages_for_deletion feed number check none none dp now,
        ¬(m.createdAt < two_weeks_ago now))
    ∧ get_messages_for_deletion feed number check none none dp now
        = get_messages_for_deletion (feed.takeWhile (young (two_weeks_ago now)))
            number check none none dp now := by
  constructor
  · intro m hm
    rw [gmfd_no_anchors] at hm
    rcases gmfd_loop_mem _ _ _ feed [] m hm with h | h
    · exact absurd h (List.not_mem_nil m)
    · exact h.2
  · rw [gmfd_no_anchors, gmfd_no_anchors, ← gmfd_loop_takeWhile]

/-- Claim C3 witness: applying the amended theorem at a concrete feed
whose single message is younger than the cutoff. -/
theorem cutoff_strict_exclusion_instance :
    ¬((⟨1, 2, "a", 50, false⟩ : Message).createdAt < two_weeks_ago 20200) :=
  (cutoff_strict_exclusion [⟨1, 2, "a", 50, false⟩] none (fun _ => true) false
    20200).1 ⟨1, 2, "a", 50, false⟩ (by decide)

/-- Claim C10: a target count of `0` is falsy in the loop's break test
(Python `number and ...`), so the scan behaves exactly as with
`number = None`: it collects every predicate-passing message down to
the cutoff or feed exhaustion, instead of returning an empty
selection. -/
theorem zero_count_unbounded (feed : List Message) (check : Message → Bool)
    (dp : Bool) (now : Int) :
    get_messages_for_deletion feed (some 0) check none none dp now
      = get_messages_for_deletion feed none check none none dp now
    ∧ get_messages_for_deletion feed (some 0) check none none dp now
      = (feed.takeWhile (young (two_weeks_ago now))).filter check := by
  constructor
  · rw [gmfd_no_anchors, gmfd_no_anchors, gmfd_loop_zero]
  · rw [gmfd_no_anchors, gmfd_loop_zero, gmfd_loop_none_eq]
    simp

/-- Claim C4 (counterexample): a non-positive count is not rejected.
With count `0` the scan runs to exhaustion and `mass_purge` is invoked
on a non-empty selection; with count `-3` the scan still runs and
purges the first matching message. No validation error exists in the
code. -/
theorem nonpositive_count_not_rejected :
    cleanup_text ⟨⟨10, 5, "trigger", 1000, false⟩, 99, true, true⟩ "a" 0 false
        [⟨10, 5, "trigger", 1000, false⟩, ⟨9, 6, "has a inside", 999, false⟩,
         ⟨8, 6, "more a here", 998, false⟩]
        ⟨"yes", true, true⟩ 20200
      = .massPurge [⟨9, 6, "has a inside", 999, false⟩,
                    ⟨8, 6, "more a here", 998, false⟩]
    ∧ cleanup_text ⟨⟨10, 5, "trigger", 1000, false⟩, 99, true, true⟩ "a" (-3) false
        [⟨10, 5, "trigger", 1000, false⟩, ⟨9, 6, "has a inside", 999, false⟩,
         ⟨8, 6, "more a here", 998, false⟩]
        ⟨"yes", true, true⟩ 20200
      = .massPurge [⟨9, 6, "has a inside", 999, false⟩] := by
  decide

/-- Claim C4 (amended): `cleanup text` performs no validation of the
count: for any non-positive count (with permission held, and the
confirmation gate never firing since the count is below 101) the scan
runs and its result is handed to `mass_purge`; a count of `0` disables
the count limit entirely, and a negative count ends the scan after the
first accepted message. -/
theorem nonpositive_count_scan_behavior (ctx : Ctx) (t : String) (dp : Bool)
    (feed : List Message) (env : ConfirmEnv) (now : Int) (n : Int)
    (hperm : ctx.canManageMessages = true) (hn : n ≤ 0) :
    cleanup_text ctx t n dp feed env now
      = .massPurge (get_messages_for_deletion feed (some n)
          (text_check t ctx.message) (some ctx.message) none dp now)
    ∧ (n = 0 →
        get_messages_for_deletion feed (some n) (text_check t ctx.message)
            (some ctx.message) none dp now
          = get_messages_for_deletion feed none (text_check t ctx.message)
              (some ctx.message) none dp now)
    ∧ (n < 0 →
        (get_messages_for_deletion feed (some n) (text_check t ctx.message)
            (some ctx.message) none dp now).length ≤ 1) := by
  refine ⟨?_, ?_, ?_⟩
  · have h100 : ¬(n > 100) := by omega
    simp [cleanup_text, hperm, with_confirmation, h100]
  · intro h0
    subst h0
    simp only [get_messages_for_deletion]
    exact gmfd_loop_zero _ _ _ _
  · intro hneg
    simp only [get_messages_for_deletion]
    exact gmfd_loop_neg _ _ n hneg _

/-- Claim C4 witness: the amended theorem applied at a concrete
invocation with count 0 and with count -3. -/
theorem nonpositive_count_scan_behavior_instance :
    cleanup_text ⟨⟨10, 5, "trigger", 1000, false⟩, 99, true, true⟩ "b" 0 false
        [⟨9, 6, "has b inside", 999, false⟩] ⟨"yes", true, true⟩ 20200
      = .massPurge (get_messages_for_deletion
          [⟨9, 6, "has b inside", 999, false⟩] (some 0)
          (text_check "b" ⟨10, 5, "trigger", 1000, false⟩)
          (some ⟨10, 5, "trigger", 1000, false⟩) none false 20200)
    ∧ (get_messages_for_deletion [⟨9, 6, "has b inside", 999, false⟩] (some (-3))
        (text_check "b" ⟨10, 5, "trigger", 1000, false⟩)
        (some ⟨10, 5, "trigger", 1000, false⟩) none false 20200).length ≤ 1 :=
  ⟨(nonpositive_count_scan_behavior ⟨⟨10, 5, "trigger", 1000, false⟩, 99, true, true⟩
      "b" false [⟨9, 6, "has b inside", 999, false⟩] ⟨"yes", true, true⟩ 20200 0
      rfl (by omega)).1,
   (nonpositive_count_scan_behavior ⟨⟨10, 5, "trigger", 1000, false⟩, 99, true, true⟩
      "b" false [⟨9, 6, "has b inside", 999, false⟩] ⟨"yes", true, true⟩ 20200 (-3)
      rfl (by omega)).2.2 (by omega)⟩

/-- Claim C5: on a newest-first feed, with a positive target count `n`,
the scan returns exactly the first `n` messages that are inside the age
window and accepted by the predicate, in encounter order; when fewer
than `n` such messages exist it returns all of them (the feed having
been consumed to the cutoff or to exhaustion). -/
theorem target_count_selection (feed : List Message) (check : Message → Bool)
    (dp : Bool) (now : Int) (n : Int) (hn : 0 < n)
    (hsort : feed.Pairwise (fun a b => b.createdAt ≤ a.createdAt)) :
    get_messages_for_deletion feed (some n) check none none dp now
      = ((feed.filter (young (two_weeks_ago now))).filter check).take n.toNat
    ∧ (n.toNat ≤ ((feed.filter (young (two_weeks_ago now))).filter check).length →
        (get_messages_for_deletion feed (some n) check none none dp now).length
          = n.toNat)
    ∧ (((feed.filter (young (two_weeks_ago now))).filter check).length < n.toNat →
        get_messages_for_deletion feed (some n) check none none dp now
          = (feed.filter (young (two_weeks_ago now))).filter check) := by
  have hmain : get_messages_for_deletion feed (some n) check none none dp now
      = ((feed.filter (young (two_weeks_ago now))).filter check).take n.toNat := by
    rw [gmfd_no_anchors,
      gmfd_loop_pos_eq (two_weeks_ago now) check n hn feed [] (by simp; omega),
      takeWhile_young_eq_filter _ _ hsort]
    simp
  refine ⟨hmain, ?_, ?_⟩
  · intro hle
    rw [hmain, List.length_take]
    omega
  · intro hlt
    rw [hmain, List.take_of_length_le (by omega)]

/-- Claim C5 witness: a three-message sorted feed with two matches and
target count 2 returns exactly those two matches in encounter order. -/
theorem target_count_selection_instance :
    get_messages_for_deletion
        [⟨3, 1, "x one", 300, false⟩, ⟨2, 1, "y", 200, false⟩,
         ⟨1, 1, "x two", 100, false⟩]
        (some 2) (fun m => str_contains m.content "x") none none false 20200
      = [⟨3, 1, "x one", 300, false⟩, ⟨1, 1, "x two", 100, false⟩] :=
  (target_count_selection
    [⟨3, 1, "x one", 300, false⟩, ⟨2, 1, "y", 200, false⟩,
     ⟨1, 1, "x two", 100, false⟩]
    (fun m => str_contains m.content "x") false 20200 2 (by omega)
    (by decide)).1.trans (by decide)

/-- Claim C6: the deletion strategy of `cleanup self` is chosen solely
by the capability flag (`can_mass_purge`, i.e. the author being a guild
member and the bot holding channel-wide Manage Messages) — `mass_purge`
when set, `slow_deletion` otherwise, for any feed and hence any
selection size — and `cleanup self` never refuses for missing
permission, while every other embedded cleanup command refuses
outright without that permission. -/
theorem deletion_dispatch_by_capability
    (ctx : Ctx) (t : String) (resolvedId : Option Nat) (anchor : Option Message)
    (mp : Option String) (n : Int) (dp : Bool) (prefsIn : List String)
    (getCommand : String → Bool) (feed : List Message) (env : ConfirmEnv)
    (now : Int) :
    (ctx.canManageMessages = false →
      cleanup_text ctx t n dp feed env now = .noPerms
      ∧ cleanup_user ctx resolvedId n dp feed env now = .noPerms
      ∧ cleanup_after ctx anchor dp feed now = .noPerms
      ∧ cleanup_messages ctx n dp feed env now = .noPerms
      ∧ cleanup_bot ctx n dp prefsIn getCommand feed env now = .noPerms)
    ∧ cleanup_self ctx n mp dp feed env now ≠ CmdResult.noPerms
    ∧ (n ≤ 100 →
        cleanup_self ctx n mp dp feed env now
          = (if ctx.authorIsMember && ctx.canManageMessages
             then CmdResult.massPurge (get_messages_for_deletion feed (some n)
               (self_check ctx.botUserId mp) (some ctx.message) none dp now)
             else CmdResult.slowDelete (get_messages_for_deletion feed (some n)
               (self_check ctx.botUserId mp) (some ctx.message) none dp now))) := by
  refine ⟨?_, ?_, ?_⟩
  · intro hperm
    exact ⟨by simp [cleanup_text, hperm], by simp [cleanup_user, hperm],
      by simp [cleanup_after, hperm], by simp [cleanup_messages, hperm],
      by simp [cleanup_bot, hperm]⟩
  · refine with_confirmation_ne_noPerms n env _ ?_
    cases ctx.authorIsMember && ctx.canManageMessages <;> simp
  · intro h100
    simp [cleanup_self, with_confirmation, show ¬(n > 100) by omega]

/-- Claim C6 witness: with permission absent, `cleanup text` refuses
while `cleanup self` proceeds on the sequential path. -/
theorem deletion_dispatch_by_capability_instance :
    cleanup_text ⟨⟨10, 5, "t", 1000, false⟩, 99, true, false⟩ "a" 5 false []
        ⟨"yes", true, true⟩ 20200 = .noPerms
    ∧ cleanup_self ⟨⟨10, 5, "t", 1000, false⟩, 99, true, false⟩ 5 none false []
        ⟨"yes", true, true⟩ 20200
      = CmdResult.slowDelete (get_messages_for_deletion [] (some 5)
          (self_check 99 none) (some ⟨10, 5, "t", 1000, false⟩) none false 20200) := by
  have h := deletion_dispatch_by_capability
    ⟨⟨10, 5, "t", 1000, false⟩, 99, true, false⟩ "a" none none none 5 false []
    (fun _ => false) [] ⟨"yes", true, true⟩ 20200
  exact ⟨(h.1 rfl).1, (h.2.2 (by omega)).trans (by decide)⟩

/-- Claim C7 (counterexample): with a count above 100, an affirmative
reply, and a failing prompt delete, the gate does not resolve
confirmed: the bare `await prompt.delete()` is outside any `try`, so
the failure escapes and the whole command aborts — prompt removal is
not best-effort as the claim states. -/
theorem prompt_delete_failure_not_swallowed :
    check_100_plus 150 ⟨"yes", false, true⟩
      = (.raised, [.sendPrompt 150, .deletePrompt])
    ∧ cleanup_text ⟨⟨10, 5, "t", 1000, false⟩, 99, true, true⟩ "a" 150 false
        [⟨10, 5, "t", 1000, false⟩, ⟨9, 6, "has a inside", 999, false⟩]
        ⟨"yes", false, true⟩ 20200 = .confirmRaised := by
  decide

/-- Claim C7 (amended): for a count above 100 the gate emits its prompt
first; a reply from the invoking user starting with a case-insensitive
"y" resolves confirmed when the prompt delete succeeds, with the
confirming reply's removal attempted and its failure swallowed (the
outcome is independent of `responseDeleteOk`); the prompt's own
removal, however, is unprotected — its failure escapes. Any other reply
resolves declined, a cancellation notice is sent, and the command
performs no deletion. -/
theorem confirmation_gate_behavior (n : Int) (env : ConfirmEnv) (ctx : Ctx)
    (t : String) (dp : Bool) (feed : List Message) (now : Int) :
    ((check_100_plus n env).2.head? = some (.sendPrompt n))
    ∧ (starts_with_y env.responseContent = true → env.promptDeleteOk = true →
        check_100_plus n env
          = (.confirmed, [.sendPrompt n, .deletePrompt, .deleteResponse]))
    ∧ (starts_with_y env.responseContent = true → env.promptDeleteOk = false →
        check_100_plus n env = (.raised, [.sendPrompt n, .deletePrompt]))
    ∧ (starts_with_y env.responseContent = false →
        check_100_plus n env = (.declined, [.sendPrompt n, .sendCancelled]))
    ∧ (n > 100 → starts_with_y env.responseContent = false →
        ctx.canManageMessages = true →
        cleanup_text ctx t n dp feed env now = .cancelled) := by
  refine ⟨?_, ?_, ?_, ?_, ?_⟩
  · by_cases hy : starts_with_y env.responseContent <;>
      by_cases hp : env.promptDeleteOk <;> simp [check_100_plus, hy, hp]
  · intro hy hp; simp [check_100_plus, hy, hp]
  · intro hy hp; simp [check_100_plus, hy, hp]
  · intro hy; simp [check_100_plus, hy]
  · intro h100 hy hperm
    simp [cleanup_text, hperm, with_confirmation, h100, check_100_plus, hy]

/-- Claim C7 witness: the amended theorem at a concrete environment —
a "Yes" reply with a failing response delete still confirms (failure
swallowed), and a "no" reply cancels the command. -/
theorem confirmation_gate_behavior_instance :
    check_100_plus 150 ⟨"Yes", true, false⟩
      = (.confirmed, [.sendPrompt 150, .deletePrompt, .deleteResponse])
    ∧ cleanup_text ⟨⟨10, 5, "t", 1000, false⟩, 99, true, true⟩ "a" 150 false []
        ⟨"no", true, true⟩ 20200 = .cancelled :=
  ⟨(confirmation_gate_behavior 150 ⟨"Yes", true, false⟩
      ⟨⟨10, 5, "t", 1000, false⟩, 99, true, true⟩ "a" false [] 20200).2.1
      (by decide) rfl,
   (confirmation_gate_behavior 150 ⟨"no", true, true⟩
      ⟨⟨10, 5, "t", 1000, false⟩, 99, true, true⟩ "a" false [] 20200).2.2.2.2
      (by omega) (by decide) rfl⟩

/-- Claim C8: the self-message predicate selects only bot-authored
messages whose content matches the pattern: with no pattern every
bot-authored message is selected; a message not authored by the bot is
never selected for any pattern; with pattern "foo" content "foobar" is
selected (substring test); with pattern "r(^foo)" content "foobar" is
selected and "barfoo" is not (regex after stripping the marker). -/
theorem self_predicate_behavior (bid : Nat) :
    (∀ m : Message, m.authorId = bid → self_check bid none m = true)
    ∧ (∀ (mp : Option String) (m : Message), m.authorId ≠ bid →
        self_check bid mp m = false)
    ∧ (∀ m : Message, m.authorId = bid → m.content = "foobar" →
        self_check bid (some "foo") m = true)
    ∧ (∀ m : Message, m.authorId = bid → m.content = "foobar" →
        self_check bid (some "r(^foo)") m = true)
    ∧ (∀ m : Message, m.authorId = bid → m.content = "barfoo" →
        self_check bid (some "r(^foo)") m = false) := by
  refine ⟨?_, ?_, ?_, ?_, ?_⟩
  · intro m h; simp [self_check, h, self_content_match]
  · intro mp m h
    have hb : (m.authorId != bid) = true := by simp [h]
    simp [self_check, hb]
  · intro m h hc
    have : self_content_match (some "foo") "foobar" = true := by decide
    simp [self_check, h, hc, this]
  · intro m h hc
    have : self_content_match (some "r(^foo)") "foobar" = true := by decide
    simp [self_check, h, hc, this]
  · intro m h hc
    have : self_content_match (some "r(^foo)") "barfoo" = false := by decide
    simp [self_check, h, hc, this]

/-- Claim C8 witness: the predicate theorem applied at concrete
messages for each listed case. -/
theorem self_predicate_behavior_instance :
    self_check 7 none ⟨1, 7, "anything", 0, false⟩ = true
    ∧ self_check 7 (some "r(^foo)") ⟨2, 8, "foobar", 0, false⟩ = false
    ∧ self_check 7 (some "foo") ⟨3, 7, "foobar", 0, false⟩ = true
    ∧ self_check 7 (some "r(^foo)") ⟨4, 7, "foobar", 0, false⟩ = true
    ∧ self_check 7 (some "r(^foo)") ⟨5, 7, "barfoo", 0, false⟩ = false :=
  ⟨(self_predicate_behavior 7).1 _ rfl,
   (self_predicate_behavior 7).2.1 _ _ (by decide),
   (self_predicate_behavior 7).2.2.1 _ rfl rfl,
   (self_predicate_behavior 7).2.2.2.1 _ rfl rfl,
   (self_predicate_behavior 7).2.2.2.2 _ rfl rfl⟩

/-- Claim C9: for a non-bot, non-triggering message whose content is
"!unknowncmd foo" and configured prefix "!", the command-message
predicate returns exactly the command registry's verdict on the token
"unknowncmd": excluded when it is not a registered command, included
when it is. -/
theorem bot_predicate_registered_command (getCommand : String → Bool)
    (bid : Nat) (ctxMsg m : Message)
    (h1 : m.authorId ≠ bid) (h2 : m.id ≠ ctxMsg.id)
    (h3 : m.content = "!unknowncmd foo") :
    bot_check bid ctxMsg ["!"] getCommand m = getCommand "unknowncmd" := by
  have hb1 : (m.authorId == bid) = false := by simp [h1]
  have hb2 : (m.id == ctxMsg.id) = false := by simp [h2]
  have hfind : str_starts m.content "!" = true := by rw [h3]; decide
  have htok : first_token (str_drop m.content (str_len "!")) = "unknowncmd" := by
    rw [h3]; decide
  simp [bot_check, hb1, hb2, List.find?, hfind, htok,
    show 0 < str_len "!" from by decide]

/-- Claim C9 witness: the predicate theorem evaluated with an
unregistered and with a registered "unknowncmd". -/
theorem bot_predicate_registered_command_instance :
    bot_check 7 ⟨10, 5, "c", 0, false⟩ ["!"] (fun s => s == "unknowncmd")
        ⟨3, 4, "!unknowncmd foo", 0, false⟩ = true
    ∧ bot_check 7 ⟨10, 5, "c", 0, false⟩ ["!"] (fun _ => false)
        ⟨3, 4, "!unknowncmd foo", 0, false⟩ = false :=
  ⟨by rw [bot_predicate_registered_command (fun s => s == "unknowncmd") 7
      ⟨10, 5, "c", 0, false⟩ ⟨3, 4, "!unknowncmd foo", 0, false⟩
      (by decide) (by decide) rfl]; decide,
   by rw [bot_predicate_registered_command (fun _ => false) 7
      ⟨10, 5, "c", 0, false⟩ ⟨3, 4, "!unknowncmd foo", 0, false⟩
      (by decide) (by decide) rfl]⟩

end Cleanup
